import Mathlib

/-!
Verification of the Data-Processing-Code repository: a shallow embedding of
`json2txt_converter.py` and `image_enhancement.py`, with theorems settling the
behavioural claims about shape transcoding, batch conversion, image
enhancement, and annotation synchronization.

Numbers that Python handles as ints/floats are modelled as unreduced integer
fractions (`PyNum`), so that true division and fixed-precision formatting are
exact and fully computable in the kernel.  Strings are handled through
character-list helpers mirroring the Python string methods used by the source.
-/

namespace DataProc

/-- A Python number as an unreduced fraction `num / den`.  JSON integers have
`den = 1`; Python's true division produces a fraction. -/
structure PyNum where
  num : ℤ
  den : ℤ
deriving DecidableEq

/-- A Python integer literal as a `PyNum`. -/
def PyNum.ofInt (n : ℤ) : PyNum := ⟨n, 1⟩

/-- Python true division `a / b` on the fraction model. -/
def PyNum.div (a b : PyNum) : PyNum := ⟨a.num * b.den, a.den * b.num⟩

/-- Python comparison `q > 0` on the fraction model (assumes `den ≠ 0`). -/
def PyNum.posB (q : PyNum) : Bool := 0 < q.num * q.den

/-- Left-pad a digit string with zeros to the given width. -/
def padZeros (k : Nat) (s : String) : String :=
  String.mk (List.replicate (k - s.length) '0') ++ s

/-- Render a nonnegative integer `n` that stands for `n / 10^k` with exactly
`k` digits after the decimal point. -/
def renderScaled (k : Nat) (n : Nat) : String :=
  toString (n / 10 ^ k) ++ "." ++ padZeros k (toString (n % 10 ^ k))

/-- Round the fraction `a / b` (with `b ≠ 0`) to the nearest integer, ties to
even — the rounding used by Python's fixed-precision formatting. -/
def fracRoundHalfEven (a b : ℤ) : ℤ :=
  let a' : ℤ := if b < 0 then -a else a
  let b' : ℤ := if b < 0 then -b else b
  let n : ℤ := Int.fdiv a' b'
  let r : ℤ := a' - n * b'
  if 2 * r > b' then n + 1
  else if 2 * r < b' then n
  else if n % 2 = 0 then n else n + 1

/-- Model of Python's fixed-precision formatting of `q` with `k` decimal
places (the format specifier `.kf`). -/
def formatFixed (k : Nat) (q : PyNum) : String :=
  let m : ℤ := fracRoundHalfEven (q.num * ((10 ^ k : Nat) : ℤ)) q.den
  if m < 0 then "-" ++ renderScaled k m.natAbs else renderScaled k m.natAbs

/-- Split a character list at every occurrence of `c` (Python `str.split`). -/
def splitCharAux (c : Char) : List Char → List Char → List String
  | [], acc => [String.mk acc.reverse]
  | x :: xs, acc =>
    if x = c then String.mk acc.reverse :: splitCharAux c xs []
    else splitCharAux c xs (x :: acc)

/-- Python `s.split(c)` for a one-character separator. -/
def splitChar (c : Char) (s : String) : List String := splitCharAux c s.data []

/-- The whitespace characters stripped by Python `str.strip`. -/
def isSpaceChar (ch : Char) : Bool := ch = ' ' || ch = '\t' || ch = '\n' || ch = '\r'

/-- Python `s.strip()`. -/
def trimStr (s : String) : String :=
  String.mk (((s.data.dropWhile isSpaceChar).reverse.dropWhile isSpaceChar).reverse)

/-- Python `s.lower()`. -/
def lowerStr (s : String) : String := String.mk (s.data.map Char.toLower)

/-- Python `s.endswith(suffx)`. -/
def endsWithStr (s suffx : String) : Bool := suffx.data.isSuffixOf s.data

/-- Python `sep.join(parts)`. -/
def joinWith (sep : String) : List String → String
  | [] => ""
  | [x] => x
  | x :: y :: xs => x ++ sep ++ joinWith sep (y :: xs)

/-- Drop the last `n` characters of a string. -/
def dropRightStr (s : String) (n : Nat) : String :=
  String.mk (s.data.take (s.data.length - n))

/-! ## Converter: `json2txt_converter.py` -/

/-- Python truthiness of `data.get(key)` for a numeric field: absent (`None`)
and zero are falsy. -/
def truthyNum : Option PyNum → Bool
  | none => false
  | some q => q.num ≠ 0

/-- Python truthiness of `shape.get('label')`: absent (`None`) and the empty
string are falsy. -/
def truthyStr : Option String → Bool
  | none => false
  | some s => s ≠ ""

/-- One shape record, with the fields read by the converter: `shape.get('label')`
and `shape.get('points', [])`. -/
structure Shape where
  label : Option String
  points : List (PyNum × PyNum)
deriving DecidableEq

/-- One parsed annotation document, with the fields read by the converter:
`data.get('imageHeight')`, `data.get('imageWidth')`, `data.get('shapes', [])`. -/
structure AnnDoc where
  imageHeight : Option PyNum
  imageWidth : Option PyNum
  shapes : List Shape
deriving DecidableEq

/-- The errors `convert_json_to_txt` raises per file (both are `ValueError`
in the source; the spec names them `MissingDimensionsError` and
`UnknownClassError`). -/
inductive ConvError
  | missingDimensions
  | unknownClass (label : String)
deriving DecidableEq

/-- The body of the per-shape loop of `convert_json_to_txt`: skip a falsy
label, raise on a label outside the class list, skip empty points, otherwise
produce one output line in the requested format (`"yolo"` is the normalized
index-based format, anything else — in the CLI, `"voc"` — is the absolute
name-based format). -/
def transcodeShape (classes : List String) (img_w img_h : PyNum) (format : String)
    (s : Shape) : Except ConvError (Option String) :=
  if truthyStr s.label = false then .ok none
  else
    let label := s.label.getD ""
    if label ∉ classes then .error (.unknownClass label)
    else if s.points = [] then .ok none
    else
      let class_idx := List.indexOf label classes
      if format = "yolo" then
        let normalized := s.points.map fun p =>
          formatFixed 6 (PyNum.div p.1 img_w) ++ " " ++ formatFixed 6 (PyNum.div p.2 img_h)
        .ok (some (toString class_idx ++ " " ++ joinWith " " normalized ++ "\n"))
      else
        let coordinates := s.points.map fun p =>
          formatFixed 1 p.1 ++ " " ++ formatFixed 1 p.2
        .ok (some (label ++ " " ++ joinWith " " coordinates ++ "\n"))

/-- The shape loop of `convert_json_to_txt`: collect the emitted lines in
order; the first raised error aborts the whole file (nothing is written). -/
def shapesLoop (classes : List String) (img_w img_h : PyNum) (format : String) :
    List Shape → Except ConvError (List String)
  | [] => .ok []
  | s :: rest =>
    match transcodeShape classes img_w img_h format s with
    | .error e => .error e
    | .ok none => shapesLoop classes img_w img_h format rest
    | .ok (some line) =>
      match shapesLoop classes img_w img_h format rest with
      | .error e => .error e
      | .ok lines => .ok (line :: lines)

/-- Conversion of one parsed annotation document (the body of the per-file
`try` in `convert_json_to_txt`): the dimension check precedes the shape loop. -/
def convertFile (classes : List String) (format : String) (d : AnnDoc) :
    Except ConvError (List String) :=
  if truthyNum d.imageHeight = false ∨ truthyNum d.imageWidth = false then
    .error .missingDimensions
  else
    shapesLoop classes (d.imageWidth.getD ⟨0, 1⟩) (d.imageHeight.getD ⟨0, 1⟩)
      format d.shapes

/-- A directory entry as the converter sees it: a file that parses to an
annotation document, a file whose bytes do not decode, or a file that is not
valid JSON. -/
inductive DirEntry
  | parsed (d : AnnDoc)
  | badEncoding
  | badJson
deriving DecidableEq

/-- The filename filter `json_fname.lower().endswith('.json')`. -/
def isJsonName (s : String) : Bool := endsWithStr (lowerStr s) ".json"

/-- `os.path.splitext(json_fname)[0] + '.txt'` for a `.json` filename. -/
def txtName (s : String) : String := dropRightStr s 5 ++ ".txt"

/-- Processing of one directory entry: the `.txt` files written (name and
lines) and the messages printed. -/
def fileOutput (classes : List String) (format : String) (f : String × DirEntry) :
    List (String × List String) × List String :=
  if isJsonName f.1 = false then ([], [])
  else
    match f.2 with
    | .badEncoding => ([], ["Skipping file with encoding issues: " ++ f.1])
    | .badJson => ([], ["Skipping invalid JSON file: " ++ f.1])
    | .parsed d =>
      match convertFile classes format d with
      | .ok lines => ([(txtName f.1, lines)], [])
      | .error _ => ([], ["Error processing " ++ f.1])

/-- The batch loop of `convert_json_to_txt` over a directory listing:
accumulated writes and printed messages, in listing order. -/
def convert_json_to_txt (classes : List String) (format : String) :
    List (String × DirEntry) → List (String × List String) × List String
  | [] => ([], [])
  | f :: rest =>
    let o := fileOutput classes format f
    let r := convert_json_to_txt classes format rest
    (o.1 ++ r.1, o.2 ++ r.2)

/-! ## Converter module initialization (the `List` name) -/

/-- A top-level statement of the converter module, as relevant to
definition-time name resolution: an import, a `def` whose parameter/return
annotations reference the given names in evaluation order, or the
`if __name__ == "__main__"` call of `main`. -/
inductive PyStmt
  | importMod (name : String)
  | defFun (name : String) (annotationNames : List String)
  | callMain
deriving DecidableEq

/-- The Python builtins referenced by the converter's annotations and body. -/
def pyBuiltins : List String :=
  ["str", "None", "int", "float", "bool", "list", "dict", "open", "print",
   "len", "ValueError", "Exception"]

/-- The first name of the list that resolves neither in the module
environment nor among the builtins — the name a `NameError` reports. -/
def firstUnresolved (env : List String) : List String → Option String
  | [] => none
  | n :: ns => if n ∈ env ∨ n ∈ pyBuiltins then firstUnresolved env ns else some n

/-- Observable module-level state: the bound names, and whether the body of
`main` ever ran (parsing arguments, loading classes, reading files). -/
structure ModuleState where
  env : List String
  argsParsed : Bool
  filesRead : Bool
deriving DecidableEq

/-- Executing the module top level: imports bind names; each `def` evaluates
its annotations at definition time and stops the module with a `NameError` on
the first unresolvable name; the main guard runs `main` (which parses
arguments and reads files). -/
def runModule : List PyStmt → ModuleState → ModuleState × Option String
  | [], st => (st, none)
  | .importMod n :: rest, st => runModule rest { st with env := st.env ++ [n] }
  | .defFun n anns :: rest, st =>
    match firstUnresolved st.env anns with
    | some bad => (st, some bad)
    | none => runModule rest { st with env := st.env ++ [n] }
  | .callMain :: rest, st =>
    runModule rest { st with argsParsed := true, filesRead := true }

/-- The top-level statements of `json2txt_converter.py`, with the names each
def's parameter and return annotations reference, in evaluation order:
`convert_json_to_txt` annotates `json_dir: str, save_dir: str,
classes: List[str], format: str = "yolo" -> None`. -/
def converterModule : List PyStmt :=
  [.importMod "os", .importMod "json", .importMod "argparse", .importMod "tqdm",
   .defFun "load_classes" [],
   .defFun "convert_json_to_txt" ["str", "str", "List", "str", "None"],
   .defFun "main" [],
   .callMain]

/-- The state in which Python starts executing the converter module. -/
def initState : ModuleState := ⟨[], false, false⟩

/-! ## Class registry: `load_classes` and the CLI validation in `main` -/

/-- File source parsing: one class per line, stripped, blanks dropped. -/
def parseClassesFile (content : String) : List String :=
  ((splitChar '\n' content).map trimStr).filter (fun l => l ≠ "")

/-- Inline source parsing: comma-delimited, stripped, blanks dropped. -/
def parseClassesStr (s : String) : List String :=
  ((splitChar ',' s).map trimStr).filter (fun l => l ≠ "")

/-- `load_classes(classes_file, classes_str)`: the file source is consulted
first; with neither source truthy a `ValueError` is raised.  `fs` maps a path
to the file's content. -/
def load_classes (fs : String → String) (classes_file classes_str : Option String) :
    Except String (List String) :=
  if truthyStr classes_file then .ok (parseClassesFile (fs (classes_file.getD "")))
  else if truthyStr classes_str then .ok (parseClassesStr (classes_str.getD ""))
  else .error "Either --classes-file or --classes must be specified"

/-- Outcome of the argument-validation and class-loading prefix of the
converter's `main`. -/
inductive MainOutcome
  | usageError (msg : String)
  | fatal (msg : String)
  | ran (classes : List String) (format : String)
deriving DecidableEq

/-- Whether an outcome is `parser.error` (an argparse usage error). -/
def MainOutcome.isUsage : MainOutcome → Bool
  | .usageError _ => true
  | _ => false

/-- The validation prefix of the converter's `main`: `parser.error` when
neither class source is truthy, then `load_classes` and the conversion run. -/
def mainConverter (fs : String → String) (classes_file classes_str : Option String)
    (format : String) : MainOutcome :=
  if truthyStr classes_file = false ∧ truthyStr classes_str = false then
    .usageError "Either --classes-file or --classes must be specified"
  else
    match load_classes fs classes_file classes_str with
    | .ok cs => .ran cs format
    | .error e => .fatal e

/-! ## Enhancer: `image_enhancement.py` -/

/-- The parameter mapping of one enhancement; a key is present in the Python
dict exactly when the field is `some`. -/
structure EnhanceParams where
  brightness : Option PyNum := none
  contrast : Option PyNum := none
  sharpness : Option PyNum := none
  color : Option PyNum := none
  blur_radius : Option PyNum := none
deriving DecidableEq

/-- PIL images, modelled as the tree of operations applied to a source image
(`ImageEnhance.X(img).enhance(f)` and `img.filter(GaussianBlur(r))` build new
images from old ones). -/
inductive Img
  | source (id : Nat)
  | rgbConvert (i : Img)
  | copy (i : Img)
  | brightness (i : Img) (f : PyNum)
  | contrast (i : Img) (f : PyNum)
  | sharpness (i : Img) (f : PyNum)
  | color (i : Img) (f : PyNum)
  | gaussianBlur (i : Img) (r : PyNum)
deriving DecidableEq

/-- `apply_enhancement` from `image_enhancement.py`: copy the input, then
conditionally apply brightness, contrast, sharpness, color and Gaussian blur,
each on the result of the previous step. -/
def apply_enhancement (image : Img) (enhance_params : EnhanceParams) : Img :=
  let e0 := Img.copy image
  let e1 := match enhance_params.brightness with
    | some f => Img.brightness e0 f
    | none => e0
  let e2 := match enhance_params.contrast with
    | some f => Img.contrast e1 f
    | none => e1
  let e3 := match enhance_params.sharpness with
    | some f => Img.sharpness e2 f
    | none => e2
  let e4 := match enhance_params.color with
    | some f => Img.color e3 f
    | none => e3
  match enhance_params.blur_radius with
  | some r => if r.posB then Img.gaussianBlur e4 r else e4
  | none => e4

/-- One image-building operation, for reading back the order in which
transforms were applied. -/
inductive Op
  | rgbConvert
  | copy
  | brightness (f : PyNum)
  | contrast (f : PyNum)
  | sharpness (f : PyNum)
  | color (f : PyNum)
  | gaussianBlur (r : PyNum)
deriving DecidableEq

/-- The operations applied to reach an image, innermost (earliest) first. -/
def Img.ops : Img → List Op
  | .source _ => []
  | .rgbConvert i => i.ops ++ [.rgbConvert]
  | .copy i => i.ops ++ [.copy]
  | .brightness i f => i.ops ++ [.brightness f]
  | .contrast i f => i.ops ++ [.contrast f]
  | .sharpness i f => i.ops ++ [.sharpness f]
  | .color i f => i.ops ++ [.color f]
  | .gaussianBlur i r => i.ops ++ [.gaussianBlur r]

/-- Apply one operation to an image. -/
def Op.applyTo (i : Img) : Op → Img
  | .rgbConvert => .rgbConvert i
  | .copy => .copy i
  | .brightness f => .brightness i f
  | .contrast f => .contrast i f
  | .sharpness f => .sharpness i f
  | .color f => .color i f
  | .gaussianBlur r => .gaussianBlur i r

/-- The ordered list of transforms a parameter mapping selects: brightness,
contrast, sharpness, color when their keys are present, then blur when its
key is present with a strictly positive radius. -/
def EnhanceParams.selectedOps (p : EnhanceParams) : List Op :=
  (match p.brightness with | some f => [Op.brightness f] | none => [])
    ++ (match p.contrast with | some f => [Op.contrast f] | none => [])
    ++ (match p.sharpness with | some f => [Op.sharpness f] | none => [])
    ++ (match p.color with | some f => [Op.color f] | none => [])
    ++ (match p.blur_radius with
        | some r => if r.posB then [Op.gaussianBlur r] else []
        | none => [])

/-! ## Dataset enhancer: `process_dataset` -/

/-- JSON values, for the annotation documents the enhancer rewrites. -/
inductive JVal
  | str (s : String)
  | num (p : PyNum)
  | bool (b : Bool)
  | null
  | arr (xs : List JVal)
  | obj (fields : List (String × JVal))

/-- A JSON object as an insertion-ordered association list (Python dict with
unique keys). -/
abbrev JObj := List (String × JVal)

/-- Python dict assignment `d[k] = v`: replace the value at `k` in place,
preserving insertion order, or append a new entry. -/
def setKey : JObj → String → JVal → JObj
  | [], k, v => [(k, v)]
  | (k', v') :: rest, k, v =>
    if k' = k then (k, v) :: rest else (k', v') :: setKey rest k v

/-- `os.path.splitext`: split a filename at its last dot into base and
extension (no dot: empty extension). -/
def splitExt (s : String) : String × String :=
  match List.indexOf? '.' s.data.reverse with
  | none => (s, "")
  | some i =>
    let pos := s.data.length - 1 - i
    (String.mk (s.data.take pos), String.mk (s.data.drop pos))

/-- The fixed image-extension allow-list check
`img_file.lower().endswith(image_extensions)`. -/
def imageExtOk (s : String) : Bool :=
  [".png", ".jpg", ".jpeg", ".bmp", ".tiff"].any
    (fun e => endsWithStr (lowerStr s) e)

/-- What `Image.open` yields for one source image: its pixel data, its color
mode, and its embedded EXIF metadata when present. -/
structure ImgData where
  pic : Img
  mode : String
  exif : Option String
deriving DecidableEq

/-- One configured enhancement: its alias and its parameter mapping. -/
structure EnhSpec where
  aliasName : String
  parameters : EnhanceParams
deriving DecidableEq

/-- A file written by the enhancer: an enhanced image (with re-embedded
metadata) or a rewritten annotation document. -/
inductive OutFile
  | imgFile (dir name : String) (content : Img) (exif : Option String)
  | annFile (dir name : String) (content : JObj)

/-- Count of enhanced images among the written files. -/
def countImgFiles (l : List OutFile) : Nat :=
  (l.filter fun o => match o with | .imgFile _ _ _ _ => true | _ => false).length

/-- Count of rewritten annotation documents among the written files. -/
def countAnnFiles (l : List OutFile) : Nat :=
  (l.filter fun o => match o with | .annFile _ _ _ => true | _ => false).length

/-- The per-spec loop of `process_dataset` for one matched pair: for every
configured enhancement write the enhanced image, then re-read the annotation
document, set its `imagePath` to the new image name, and write it (an
annotation failure is caught and logged, the loop continues). -/
def enhanceLoop (base_name ext : String) (exif : Option String) (img : Img)
    (annEntry : Except Unit JObj) : List EnhSpec → List OutFile × List String
  | [] => ([], [])
  | e :: rest =>
    let new_img_name := base_name ++ "_" ++ e.aliasName ++ ext
    let imgOut := OutFile.imgFile ("images_" ++ e.aliasName) new_img_name
      (apply_enhancement img e.parameters) exif
    let annPart : List OutFile × List String :=
      match annEntry with
      | .ok ann_data =>
        ([OutFile.annFile ("annotations_" ++ e.aliasName) (base_name ++ "_" ++ e.aliasName ++ ".json")
            (setKey ann_data "imagePath" (.str new_img_name))], [])
      | .error _ => ([], ["Failed to process annotation for " ++ base_name])
    let r := enhanceLoop base_name ext exif img annEntry rest
    (imgOut :: annPart.1 ++ r.1, annPart.2 ++ r.2)

/-- The batch loop of `process_dataset` over the image-directory listing:
skip non-image extensions, skip (with a notice) images without a same-base
annotation file, log and continue when the image cannot be opened, and
otherwise run the per-spec loop on the RGB-normalized image.  `images` maps a
filename to its opened data (`none` models an open failure); `annFiles` maps
a base name to its annotation file (`none` absent, `.error` unparsable). -/
def process_dataset (images : String → Option ImgData)
    (annFiles : String → Option (Except Unit JObj)) (config : List EnhSpec) :
    List String → List OutFile × List String
  | [] => ([], [])
  | img_file :: rest =>
    let r := process_dataset images annFiles config rest
    if imageExtOk img_file = false then r
    else
      let base_name := (splitExt img_file).1
      match annFiles base_name with
      | none => (r.1, ("Skipping unannotated file: " ++ img_file) :: r.2)
      | some annEntry =>
        match images img_file with
        | none => (r.1, ("Failed to process image " ++ img_file) :: r.2)
        | some idata =>
          let ext := (splitExt img_file).2
          let img1 := if idata.mode = "RGB" then idata.pic else Img.rgbConvert idata.pic
          let o := enhanceLoop base_name ext idata.exif img1 annEntry config
          (o.1 ++ r.1, o.2 ++ ("Processed: " ++ img_file) :: r.2)

/-! ## Claims about the shape transcoder -/

/-- C1: For every shape whose label is present in the class registry and whose
points list is non-empty, transcoding in normalized format (`"yolo"`) emits
the 0-based index of the label in the registry followed by, for each point in
order, `x / imageWidth` and `y / imageHeight` each formatted to 6 decimal
places; in particular, for classes `["cat", "dog"]`, shape label `"dog"` with
points `[[50, 100]]`, imageWidth 100, imageHeight 200, the emitted line is
`"1 0.500000 0.500000\n"`. -/
theorem claim_C1 (classes : List String) (img_w img_h : PyNum) (s : Shape)
    (lbl : String) (hlab : s.label = some lbl) (hne : lbl ≠ "")
    (hmem : lbl ∈ classes) (hpts : s.points ≠ []) :
    transcodeShape classes img_w img_h "yolo" s =
      .ok (some (toString (List.indexOf lbl classes) ++ " " ++
        joinWith " " (s.points.map fun p =>
          formatFixed 6 (PyNum.div p.1 img_w) ++ " " ++
          formatFixed 6 (PyNum.div p.2 img_h)) ++ "\n")) ∧
    transcodeShape ["cat", "dog"] ⟨100, 1⟩ ⟨200, 1⟩ "yolo"
        ⟨some "dog", [(⟨50, 1⟩, ⟨100, 1⟩)]⟩ =
      .ok (some "1 0.500000 0.500000\n") := by
  constructor
  · simp [transcodeShape, truthyStr, hlab, hne, hmem, hpts]
  · rfl

/-- Witness for C1: the concrete scenario from the claim. -/
theorem claim_C1_witness :
    (("dog" : String) ≠ "" ∧ "dog" ∈ ["cat", "dog"]) ∧
    transcodeShape ["cat", "dog"] ⟨100, 1⟩ ⟨200, 1⟩ "yolo"
        ⟨some "dog", [(⟨50, 1⟩, ⟨100, 1⟩)]⟩ =
      .ok (some "1 0.500000 0.500000\n") :=
  ⟨⟨by decide, by decide⟩,
    (claim_C1 ["cat", "dog"] ⟨100, 1⟩ ⟨200, 1⟩ ⟨some "dog", [(⟨50, 1⟩, ⟨100, 1⟩)]⟩
      "dog" rfl (by decide) (by decide) (by decide)).2⟩

/-- C9: For every shape whose label is in the class registry and whose points
list is non-empty, transcoding in absolute format (any format other than
`"yolo"`; `"voc"` in the CLI) emits the label followed by, for each point in
order, `x` and `y` each formatted to 1 decimal place, unscaled — the emitted
line is independent of imageWidth and imageHeight. -/
theorem claim_C9 (classes : List String) (img_w img_h img_w' img_h' : PyNum)
    (format : String) (s : Shape) (lbl : String)
    (hfmt : format ≠ "yolo") (hlab : s.label = some lbl) (hne : lbl ≠ "")
    (hmem : lbl ∈ classes) (hpts : s.points ≠ []) :
    transcodeShape classes img_w img_h format s =
      .ok (some (lbl ++ " " ++
        joinWith " " (s.points.map fun p =>
          formatFixed 1 p.1 ++ " " ++ formatFixed 1 p.2) ++ "\n")) ∧
    transcodeShape classes img_w img_h format s =
      transcodeShape classes img_w' img_h' format s ∧
    transcodeShape ["cat", "dog"] ⟨100, 1⟩ ⟨200, 1⟩ "voc"
        ⟨some "dog", [(⟨50, 1⟩, ⟨100, 1⟩)]⟩ =
      .ok (some "dog 50.0 100.0\n") := by
  have habs : ∀ w h : PyNum, transcodeShape classes w h format s =
      .ok (some (lbl ++ " " ++
        joinWith " " (s.points.map fun p =>
          formatFixed 1 p.1 ++ " " ++ formatFixed 1 p.2) ++ "\n")) := by
    intro w h
    simp [transcodeShape, truthyStr, hlab, hne, hmem, hpts, hfmt]
  exact ⟨habs img_w img_h, (habs img_w img_h).trans (habs img_w' img_h').symm, rfl⟩

/-- Witness for C9: the concrete scenario from the claim, with the
independence from the image dimensions checked at two dimension pairs. -/
theorem claim_C9_witness :
    (("voc" : String) ≠ "yolo" ∧ "dog" ∈ ["cat", "dog"]) ∧
    transcodeShape ["cat", "dog"] ⟨640, 1⟩ ⟨480, 1⟩ "voc"
        ⟨some "dog", [(⟨50, 1⟩, ⟨100, 1⟩)]⟩ =
      transcodeShape ["cat", "dog"] ⟨9999, 1⟩ ⟨7, 1⟩ "voc"
        ⟨some "dog", [(⟨50, 1⟩, ⟨100, 1⟩)]⟩ :=
  ⟨⟨by decide, by decide⟩,
    (claim_C9 ["cat", "dog"] ⟨640, 1⟩ ⟨480, 1⟩ ⟨9999, 1⟩ ⟨7, 1⟩ "voc"
      ⟨some "dog", [(⟨50, 1⟩, ⟨100, 1⟩)]⟩ "dog" (by decide) rfl (by decide)
      (by decide) (by decide)).2.1⟩

/-- Counterexample to C3 as stated: a shape with an empty points list but a
non-empty label that is outside the class registry fails the whole file (the
label-membership check precedes the empty-points check), so the file's
conversion does fail and no `.txt` is written for it. -/
theorem claim_C3_counterexample :
    convertFile ["cat", "dog"] "yolo"
        ⟨some ⟨200, 1⟩, some ⟨100, 1⟩, [⟨some "bird", []⟩]⟩ =
      .error (.unknownClass "bird") ∧
    fileOutput ["cat", "dog"] "yolo"
        ("im0.json", .parsed ⟨some ⟨200, 1⟩, some ⟨100, 1⟩, [⟨some "bird", []⟩]⟩) =
      ([], ["Error processing im0.json"]) :=
  ⟨rfl, rfl⟩

/-- Auxiliary: inserting a shape that transcodes to no line anywhere in the
shape list leaves the result of the shape loop unchanged. -/
theorem shapesLoop_skip (classes : List String) (img_w img_h : PyNum)
    (format : String) (s : Shape) (pre post : List Shape)
    (hskip : transcodeShape classes img_w img_h format s = .ok none) :
    shapesLoop classes img_w img_h format (pre ++ s :: post) =
      shapesLoop classes img_w img_h format (pre ++ post) := by
  induction pre with
  | nil => simp [shapesLoop, hskip]
  | cons p pre ih =>
    simp only [List.cons_append, shapesLoop, List.append_eq]
    rw [ih]

/-- C3 amended: a shape with an empty points list contributes no output line
and does not fail the containing file, provided its label is falsy or a
member of the class registry (an unknown non-empty label still fails the
file, as the counterexample shows): removing such a shape from anywhere in
the document leaves the conversion result unchanged. -/
theorem claim_C3_amended (classes : List String) (format : String)
    (imageHeight imageWidth : Option PyNum) (pre post : List Shape)
    (img_w img_h : PyNum) (s : Shape) (hpts : s.points = [])
    (hlab : truthyStr s.label = false ∨ s.label.getD "" ∈ classes) :
    transcodeShape classes img_w img_h format s = .ok none ∧
    convertFile classes format ⟨imageHeight, imageWidth, pre ++ s :: post⟩ =
      convertFile classes format ⟨imageHeight, imageWidth, pre ++ post⟩ := by
  have hskip : ∀ w h : PyNum, transcodeShape classes w h format s = .ok none := by
    intro w h
    rcases hlab with hfls | hmem
    · simp [transcodeShape, hfls]
    · by_cases hfls : truthyStr s.label = false
      · simp [transcodeShape, hfls]
      · simp [transcodeShape, hfls, hmem, hpts]
  refine ⟨hskip img_w img_h, ?_⟩
  simp only [convertFile]
  split
  · rfl
  · exact shapesLoop_skip _ _ _ _ _ _ _ (hskip _ _)

/-- Witness for the amended C3: a known-class shape with empty points between
two emitting shapes changes nothing; in particular both documents convert to
the same single line. -/
theorem claim_C3_witness :
    ((⟨some "cat", []⟩ : Shape).points = [] ∧
      (truthyStr (⟨some "cat", []⟩ : Shape).label = false ∨
        (⟨some "cat", []⟩ : Shape).label.getD "" ∈ ["cat", "dog"])) ∧
    (transcodeShape ["cat", "dog"] ⟨100, 1⟩ ⟨200, 1⟩ "yolo" ⟨some "cat", []⟩ =
        .ok none ∧
      convertFile ["cat", "dog"] "yolo"
          ⟨some ⟨200, 1⟩, some ⟨100, 1⟩,
            [⟨some "dog", [(⟨50, 1⟩, ⟨100, 1⟩)]⟩] ++ ⟨some "cat", []⟩ ::
              [⟨some "dog", [(⟨25, 1⟩, ⟨50, 1⟩)]⟩]⟩ =
        convertFile ["cat", "dog"] "yolo"
          ⟨some ⟨200, 1⟩, some ⟨100, 1⟩,
            [⟨some "dog", [(⟨50, 1⟩, ⟨100, 1⟩)]⟩] ++
              [⟨some "dog", [(⟨25, 1⟩, ⟨50, 1⟩)]⟩]⟩) :=
  ⟨⟨by decide, by decide⟩,
    claim_C3_amended ["cat", "dog"] "yolo" (some ⟨200, 1⟩) (some ⟨100, 1⟩)
      [⟨some "dog", [(⟨50, 1⟩, ⟨100, 1⟩)]⟩] [⟨some "dog", [(⟨25, 1⟩, ⟨50, 1⟩)]⟩]
      ⟨100, 1⟩ ⟨200, 1⟩ ⟨some "cat", []⟩ (by decide) (by decide)⟩

/-- C4: executing the converter module stops with a `NameError` on the name
`List` while defining `convert_json_to_txt` — before `main` is even defined,
so before any command-line argument is parsed, any class list loaded, or any
annotation file read. -/
theorem claim_C4 :
    runModule converterModule initState =
      (⟨["os", "json", "argparse", "tqdm", "load_classes"], false, false⟩,
        some "List") ∧
    (runModule converterModule initState).1.argsParsed = false ∧
    (runModule converterModule initState).1.filesRead = false ∧
    "main" ∉ (runModule converterModule initState).1.env :=
  ⟨rfl, rfl, rfl, by decide⟩

/-! ## Claims about the conversion batch -/

/-- Auxiliary: a shape with a truthy label outside the class list makes the
shape loop raise (whichever failing shape is reached first). -/
theorem shapesLoop_error_of_unknown (classes : List String) (img_w img_h : PyNum)
    (format : String) (shapes : List Shape)
    (hbad : ∃ s ∈ shapes, truthyStr s.label = true ∧ s.label.getD "" ∉ classes) :
    ∃ e, shapesLoop classes img_w img_h format shapes = .error e := by
  induction shapes with
  | nil => simp at hbad
  | cons s rest ih =>
    by_cases hs : truthyStr s.label = true ∧ s.label.getD "" ∉ classes
    · refine ⟨.unknownClass (s.label.getD ""), ?_⟩
      have : transcodeShape classes img_w img_h format s =
          .error (.unknownClass (s.label.getD "")) := by
        simp [transcodeShape, hs.1, hs.2]
      simp [shapesLoop, this]
    · have hrest : ∃ s ∈ rest, truthyStr s.label = true ∧ s.label.getD "" ∉ classes := by
        rcases hbad with ⟨t, ht, hbt⟩
        rcases List.mem_cons.mp ht with rfl | htr
        · exact absurd hbt hs
        · exact ⟨t, htr, hbt⟩
      obtain ⟨e, he⟩ := ih hrest
      rcases hc : transcodeShape classes img_w img_h format s with e' | l
      · exact ⟨e', by simp [shapesLoop, hc]⟩
      · rcases l with _ | line
        · exact ⟨e, by simp [shapesLoop, hc, he]⟩
        · exact ⟨e, by simp [shapesLoop, hc, he]⟩

/-- Auxiliary: a document containing a shape with a truthy label outside the
class list fails to convert. -/
theorem convertFile_error_of_unknown (classes : List String) (format : String)
    (d : AnnDoc)
    (hbad : ∃ s ∈ d.shapes, truthyStr s.label = true ∧ s.label.getD "" ∉ classes) :
    ∃ e, convertFile classes format d = .error e := by
  simp only [convertFile]
  split
  · exact ⟨.missingDimensions, rfl⟩
  · exact shapesLoop_error_of_unknown _ _ _ _ _ hbad

/-- Auxiliary: every `.json` file of the listing whose document converts
cleanly has its `.txt` content among the batch's writes. -/
theorem convert_batch_writes (classes : List String) (format : String)
    (files : List (String × DirEntry)) (g : String) (d2 : AnnDoc)
    (lines : List String) (hg : (g, DirEntry.parsed d2) ∈ files)
    (hjson : isJsonName g = true)
    (hok : convertFile classes format d2 = .ok lines) :
    (txtName g, lines) ∈ (convert_json_to_txt classes format files).1 := by
  induction files with
  | nil => simp at hg
  | cons f rest ih =>
    simp only [convert_json_to_txt, List.mem_append]
    rcases List.mem_cons.mp hg with rfl | hgr
    · left
      simp [fileOutput, hjson, hok]
    · right
      exact ih hgr

/-- C2: a `.json` annotation file containing a shape whose truthy label is
not in the class registry fails as a whole: the file's conversion raises, no
`.txt` write is produced for that file (not even from shapes transcoded
before the failure), the failure is printed, and every other file of the
listing whose document converts cleanly still has its output written. -/
theorem claim_C2 (classes : List String) (format fname : String) (d : AnnDoc)
    (files : List (String × DirEntry))
    (_hmem : (fname, DirEntry.parsed d) ∈ files)
    (hjson : isJsonName fname = true)
    (hbad : ∃ s ∈ d.shapes, truthyStr s.label = true ∧ s.label.getD "" ∉ classes) :
    (∃ e, convertFile classes format d = .error e) ∧
    fileOutput classes format (fname, DirEntry.parsed d) =
      ([], ["Error processing " ++ fname]) ∧
    ∀ g d2 lines, (g, DirEntry.parsed d2) ∈ files → isJsonName g = true →
      convertFile classes format d2 = .ok lines →
      (txtName g, lines) ∈ (convert_json_to_txt classes format files).1 := by
  obtain ⟨e, he⟩ := convertFile_error_of_unknown classes format d hbad
  refine ⟨⟨e, he⟩, ?_, ?_⟩
  · simp [fileOutput, hjson, he]
  · intro g d2 lines hg hj hok
    exact convert_batch_writes classes format files g d2 lines hg hj hok

/-- The documents and directory used to witness the batch claims: `bad.json`
holds an unknown class, `nodims.json` lacks its dimensions, `good.json`
converts cleanly. -/
def demoBad : AnnDoc :=
  ⟨some ⟨200, 1⟩, some ⟨100, 1⟩, [⟨some "bird", [(⟨1, 1⟩, ⟨1, 1⟩)]⟩]⟩

/-- A document with a missing `imageWidth` (see `demoBad`). -/
def demoNoDims : AnnDoc := ⟨some ⟨200, 1⟩, none, [⟨some "dog", [(⟨1, 1⟩, ⟨1, 1⟩)]⟩]⟩

/-- A document that converts cleanly (see `demoBad`). -/
def demoGood : AnnDoc :=
  ⟨some ⟨200, 1⟩, some ⟨100, 1⟩, [⟨some "dog", [(⟨50, 1⟩, ⟨100, 1⟩)]⟩]⟩

/-- The demo directory listing (see `demoBad`). -/
def demoDir : List (String × DirEntry) :=
  [("bad.json", .parsed demoBad), ("nodims.json", .parsed demoNoDims),
   ("good.json", .parsed demoGood)]

/-- Witness for C2: in the demo directory, `bad.json` is dropped with a
message while `good.json` still produces its one-line output. -/
theorem claim_C2_witness :
    (("bad.json", DirEntry.parsed demoBad) ∈ demoDir ∧
      isJsonName "bad.json" = true ∧
      ∃ s ∈ demoBad.shapes, truthyStr s.label = true ∧
        s.label.getD "" ∉ ["cat", "dog"]) ∧
    fileOutput ["cat", "dog"] "yolo" ("bad.json", DirEntry.parsed demoBad) =
      ([], ["Error processing bad.json"]) ∧
    ("good.txt", ["1 0.500000 0.500000\n"]) ∈
      (convert_json_to_txt ["cat", "dog"] "yolo" demoDir).1 := by
  have h := claim_C2 ["cat", "dog"] "yolo" "bad.json" demoBad demoDir
    (by decide) (by decide) (by decide)
  exact ⟨⟨by decide, by decide, by decide⟩, h.2.1,
    h.2.2 "good.json" demoGood ["1 0.500000 0.500000\n"] (by decide) (by decide) rfl⟩

/-- C10: a document whose `imageHeight` or `imageWidth` is absent or falsy
fails with the missing-dimensions error before any shape is transcoded (the
error is missing-dimensions even when the shapes themselves would fail); the
file is dropped with a printed message, every other cleanly-converting file
of the listing still has its output written, and whenever the shape loop — the
only place the normalized divisions happen — runs at all, both divisors are
non-zero. -/
theorem claim_C10 (classes : List String) (format fname : String) (d : AnnDoc)
    (files : List (String × DirEntry))
    (_hmem : (fname, DirEntry.parsed d) ∈ files)
    (hjson : isJsonName fname = true)
    (hdim : truthyNum d.imageHeight = false ∨ truthyNum d.imageWidth = false) :
    convertFile classes format d = .error .missingDimensions ∧
    fileOutput classes format (fname, DirEntry.parsed d) =
      ([], ["Error processing " ++ fname]) ∧
    (∀ g d2 lines, (g, DirEntry.parsed d2) ∈ files → isJsonName g = true →
      convertFile classes format d2 = .ok lines →
      (txtName g, lines) ∈ (convert_json_to_txt classes format files).1) ∧
    ∀ d' : AnnDoc, convertFile classes format d' ≠ .error .missingDimensions →
      ∃ w h : PyNum, d'.imageWidth = some w ∧ d'.imageHeight = some h ∧
        w.num ≠ 0 ∧ h.num ≠ 0 ∧
        convertFile classes format d' = shapesLoop classes w h format d'.shapes := by
  have he : convertFile classes format d = .error .missingDimensions := by
    rcases hdim with hh | hw
    · simp [convertFile, hh]
    · simp [convertFile, hw]
  refine ⟨he, by simp [fileOutput, hjson, he], ?_, ?_⟩
  · intro g d2 lines hg hj hok
    exact convert_batch_writes classes format files g d2 lines hg hj hok
  · intro d' hne
    by_cases hd : truthyNum d'.imageHeight = false ∨ truthyNum d'.imageWidth = false
    · have hmd : convertFile classes format d' = .error .missingDimensions := by
        rcases hd with hh | hw
        · simp [convertFile, hh]
        · simp [convertFile, hw]
      exact absurd hmd hne
    · push_neg at hd
      obtain ⟨hh, hw⟩ := hd
      rcases hH : d'.imageHeight with _ | qh
      · rw [hH] at hh
        simp [truthyNum] at hh
      · rcases hW : d'.imageWidth with _ | qw
        · rw [hW] at hw
          simp [truthyNum] at hw
        · rw [hH] at hh
          rw [hW] at hw
          simp only [truthyNum, ne_eq, decide_not] at hh hw
          refine ⟨qw, qh, rfl, rfl, ?_, ?_, ?_⟩
          · intro h0
            rw [h0] at hw
            simp at hw
          · intro h0
            rw [h0] at hh
            simp at hh
          · have hq : ¬qh.num = 0 := by
              intro h0
              rw [h0] at hh
              simp at hh
            have hqw : ¬qw.num = 0 := by
              intro h0
              rw [h0] at hw
              simp at hw
            simp [convertFile, truthyNum, hH, hW, hq, hqw]

/-- Witness for C10: in the demo directory, `nodims.json` fails with the
missing-dimensions error and is dropped, while `good.json` still produces
its output. -/
theorem claim_C10_witness :
    (("nodims.json", DirEntry.parsed demoNoDims) ∈ demoDir ∧
      isJsonName "nodims.json" = true ∧
      (truthyNum demoNoDims.imageHeight = false ∨
        truthyNum demoNoDims.imageWidth = false)) ∧
    convertFile ["cat", "dog"] "yolo" demoNoDims =
      .error .missingDimensions ∧
    fileOutput ["cat", "dog"] "yolo" ("nodims.json", DirEntry.parsed demoNoDims) =
      ([], ["Error processing nodims.json"]) ∧
    ("good.txt", ["1 0.500000 0.500000\n"]) ∈
      (convert_json_to_txt ["cat", "dog"] "yolo" demoDir).1 := by
  have h := claim_C10 ["cat", "dog"] "yolo" "nodims.json" demoNoDims demoDir
    (by decide) (by decide) (by decide)
  exact ⟨⟨by decide, by decide, by decide⟩, h.1, h.2.1,
    h.2.2.1 "good.json" demoGood ["1 0.500000 0.500000\n"] (by decide) (by decide) rfl⟩

/-! ## Claims about the class-registry CLI validation -/

/-- A demo file system whose every file holds the two-line class list. -/
def demoFS : String → String := fun _ => "cat\ndog"

/-- Counterexample to C8 as stated: providing both the file source and the
inline source is not a usage error — the run proceeds, and the file source
silently takes precedence over the inline one. -/
theorem claim_C8_counterexample :
    (mainConverter demoFS (some "classes.txt") (some "bird,fish") "yolo").isUsage
        = false ∧
    mainConverter demoFS (some "classes.txt") (some "bird,fish") "yolo" =
      .ran ["cat", "dog"] "yolo" :=
  ⟨rfl, rfl⟩

/-- C8 amended: providing neither class source is a usage error raised before
any class loading or conversion; providing the file source (alone or together
with the inline source) loads the file, the file source taking precedence;
providing only the inline source parses it. -/
theorem claim_C8_amended (fs : String → String) (format : String)
    (classes_file classes_str : Option String) :
    (truthyStr classes_file = false → truthyStr classes_str = false →
      (mainConverter fs classes_file classes_str format).isUsage = true) ∧
    (truthyStr classes_file = true →
      mainConverter fs classes_file classes_str format =
        .ran (parseClassesFile (fs (classes_file.getD ""))) format) ∧
    (truthyStr classes_file = false → truthyStr classes_str = true →
      mainConverter fs classes_file classes_str format =
        .ran (parseClassesStr (classes_str.getD "")) format) := by
  refine ⟨?_, ?_, ?_⟩
  · intro hf hs
    simp [mainConverter, hf, hs, MainOutcome.isUsage]
  · intro hf
    simp [mainConverter, load_classes, hf]
  · intro hf hs
    simp [mainConverter, load_classes, hf, hs]

/-- Witness for the amended C8: with both sources given the run uses the file
source; with neither, the usage error fires. -/
theorem claim_C8_witness :
    truthyStr (some "classes.txt") = true ∧
    mainConverter demoFS (some "classes.txt") (some "bird,fish") "yolo" =
      .ran ["cat", "dog"] "yolo" ∧
    (mainConverter demoFS none none "yolo").isUsage = true :=
  ⟨by decide,
    ((claim_C8_amended demoFS "yolo" (some "classes.txt") (some "bird,fish")).2.1
      (by decide)).trans (by rfl),
    (claim_C8_amended demoFS "yolo" none none).1 (by decide) (by decide)⟩

/-! ## Claims about the enhancement engine -/

/-- Auxiliary: the trace of a left fold of operations is the trace of the
start image followed by the operations folded. -/
theorem ops_foldl (l : List Op) (i : Img) :
    (l.foldl Op.applyTo i).ops = i.ops ++ l := by
  induction l generalizing i with
  | nil => simp
  | cons o l ih =>
    rw [List.foldl_cons, ih]
    cases o <;> simp [Op.applyTo, Img.ops]

/-- C6: `apply_enhancement` is exactly the left fold, over the copied input,
of the transforms selected by the parameter mapping, in the fixed order
brightness, contrast, sharpness, color, Gaussian blur — each applied exactly
when its key is present (blur also needing a strictly positive radius), each
operating on the output of the previous one; consequently the trace of
applied operations is the input's trace followed by the copy and then the
selected transforms in that order. -/
theorem claim_C6 (image : Img) (p : EnhanceParams) :
    apply_enhancement image p = p.selectedOps.foldl Op.applyTo (Img.copy image) ∧
    (apply_enhancement image p).ops =
      image.ops ++ [Op.copy] ++ p.selectedOps := by
  have hfold : apply_enhancement image p =
      p.selectedOps.foldl Op.applyTo (Img.copy image) := by
    obtain ⟨b, c, sh, col, r⟩ := p
    cases b <;> cases c <;> cases sh <;> cases col <;> cases r <;>
      simp [apply_enhancement, EnhanceParams.selectedOps, Op.applyTo] <;>
      split <;>
      simp [Op.applyTo]
  refine ⟨hfold, ?_⟩
  rw [hfold, ops_foldl]
  simp [Img.ops]

/-! ## Claims about annotation synchronization -/

/-- Auxiliary: after `d[k] = v`, looking up `k` yields `v`. -/
theorem lookup_setKey_self (d : JObj) (k : String) (v : JVal) :
    List.lookup k (setKey d k v) = some v := by
  induction d with
  | nil => simp [setKey, List.lookup]
  | cons kv rest ih =>
    by_cases hk : kv.1 = k
    · simp [setKey, hk, List.lookup]
    · have hbeq : (k == kv.1) = false := beq_eq_false_iff_ne.mpr (Ne.symm hk)
      simp [setKey, hk, List.lookup, hbeq, ih]

/-- Auxiliary: after `d[k] = v`, every other key reads as before. -/
theorem lookup_setKey_other (d : JObj) (k k' : String) (v : JVal)
    (hne : k' ≠ k) : List.lookup k' (setKey d k v) = List.lookup k' d := by
  have hbk : (k' == k) = false := beq_eq_false_iff_ne.mpr hne
  induction d with
  | nil => simp [setKey, List.lookup, hbk]
  | cons kv rest ih =>
    by_cases hk : kv.1 = k
    · subst hk
      simp [setKey, List.lookup, hbk]
    · cases hbeq : k' == kv.1 <;> simp [setKey, hk, List.lookup, hbeq, ih]

/-- Auxiliary: the per-pair loop on a cons of the configuration, with a
readable annotation document, steps to the enhanced image write, the
rewritten annotation write, and the rest of the loop. -/
theorem enhanceLoop_cons_ok (base_name ext : String) (exif : Option String)
    (img : Img) (d : JObj) (e : EnhSpec) (rest : List EnhSpec) :
    enhanceLoop base_name ext exif img (.ok d) (e :: rest) =
      (OutFile.imgFile ("images_" ++ e.aliasName)
          (base_name ++ "_" ++ e.aliasName ++ ext)
          (apply_enhancement img e.parameters) exif ::
        OutFile.annFile ("annotations_" ++ e.aliasName)
          (base_name ++ "_" ++ e.aliasName ++ ".json")
          (setKey d "imagePath" (.str (base_name ++ "_" ++ e.aliasName ++ ext))) ::
        (enhanceLoop base_name ext exif img (.ok d) rest).1,
       (enhanceLoop base_name ext exif img (.ok d) rest).2) := rfl

/-- Auxiliary: for every configured spec, the per-pair loop writes that
spec's rewritten annotation document. -/
theorem annFile_mem_enhanceLoop (base_name ext : String) (exif : Option String)
    (img : Img) (d : JObj) (config : List EnhSpec) (e : EnhSpec)
    (hcfg : e ∈ config) :
    OutFile.annFile ("annotations_" ++ e.aliasName)
        (base_name ++ "_" ++ e.aliasName ++ ".json")
        (setKey d "imagePath" (.str (base_name ++ "_" ++ e.aliasName ++ ext)))
      ∈ (enhanceLoop base_name ext exif img (.ok d) config).1 := by
  induction config with
  | nil => simp at hcfg
  | cons e' rest ih =>
    rw [enhanceLoop_cons_ok]
    rcases List.mem_cons.mp hcfg with rfl | hr
    · exact List.mem_cons_of_mem _ (List.mem_cons_self _ _)
    · exact List.mem_cons_of_mem _ (List.mem_cons_of_mem _ (ih hr))

/-- C7: the annotation document the enhancer writes for an alias is the
original document with only `imagePath` replaced by the new image filename:
that entry reads back as the new filename, and every other key reads back
with its original value. -/
theorem claim_C7 (d : JObj) (base_name ext : String) (exif : Option String)
    (img : Img) (config : List EnhSpec) (e : EnhSpec) (hcfg : e ∈ config) :
    OutFile.annFile ("annotations_" ++ e.aliasName)
        (base_name ++ "_" ++ e.aliasName ++ ".json")
        (setKey d "imagePath" (.str (base_name ++ "_" ++ e.aliasName ++ ext)))
      ∈ (enhanceLoop base_name ext exif img (.ok d) config).1 ∧
    List.lookup "imagePath"
        (setKey d "imagePath" (.str (base_name ++ "_" ++ e.aliasName ++ ext)))
      = some (.str (base_name ++ "_" ++ e.aliasName ++ ext)) ∧
    ∀ k, k ≠ "imagePath" →
      List.lookup k
          (setKey d "imagePath" (.str (base_name ++ "_" ++ e.aliasName ++ ext)))
        = List.lookup k d :=
  ⟨annFile_mem_enhanceLoop base_name ext exif img d config e hcfg,
    lookup_setKey_self d "imagePath" _,
    fun k hk => lookup_setKey_other d "imagePath" k _ hk⟩

/-- A demo annotation document for the enhancer-side witnesses. -/
def demoDoc : JObj :=
  [("imagePath", JVal.str "a.jpg"), ("imageWidth", JVal.num ⟨100, 1⟩),
   ("imageHeight", JVal.num ⟨200, 1⟩)]

/-- The demo enhancement configuration: one alias `bright`. -/
def demoConfig : List EnhSpec := [⟨"bright", { brightness := some ⟨13, 10⟩ }⟩]

/-- Witness for C7: for the demo pair `a` / alias `bright`, the rewritten
document is written, its `imagePath` reads `a_bright.jpg`, and `imageWidth`
is untouched. -/
theorem claim_C7_witness :
    (⟨"bright", { brightness := some ⟨13, 10⟩ }⟩ : EnhSpec) ∈ demoConfig ∧
    List.lookup "imagePath" (setKey demoDoc "imagePath" (.str "a_bright.jpg"))
      = some (.str "a_bright.jpg") ∧
    List.lookup "imageWidth" (setKey demoDoc "imagePath" (.str "a_bright.jpg"))
      = List.lookup "imageWidth" demoDoc := by
  have h := claim_C7 demoDoc "a" ".jpg" (some "exif0") (Img.source 0) demoConfig
    ⟨"bright", { brightness := some ⟨13, 10⟩ }⟩ (by decide)
  exact ⟨by decide, h.2.1, h.2.2 "imageWidth" (by decide)⟩
/-! ## Claims about the dataset-enhancement batch -/

/-- Auxiliary: for every configured spec, the per-pair loop writes that
spec's enhanced image. -/
theorem imgFile_mem_enhanceLoop (base_name ext : String) (exif : Option String)
    (img : Img) (d : JObj) (config : List EnhSpec) (e : EnhSpec)
    (hcfg : e ∈ config) :
    OutFile.imgFile ("images_" ++ e.aliasName)
        (base_name ++ "_" ++ e.aliasName ++ ext)
        (apply_enhancement img e.parameters) exif
      ∈ (enhanceLoop base_name ext exif img (.ok d) config).1 := by
  induction config with
  | nil => simp at hcfg
  | cons e' rest ih =>
    rw [enhanceLoop_cons_ok]
    rcases List.mem_cons.mp hcfg with rfl | hr
    · exact List.mem_cons_self _ _
    · exact List.mem_cons_of_mem _ (List.mem_cons_of_mem _ (ih hr))

/-- Auxiliary: the pair of writes the per-pair loop produces for one spec. -/
def specWrites (base_name ext : String) (exif : Option String) (img : Img)
    (d : JObj) (e : EnhSpec) : List OutFile :=
  [OutFile.imgFile ("images_" ++ e.aliasName)
      (base_name ++ "_" ++ e.aliasName ++ ext)
      (apply_enhancement img e.parameters) exif,
    OutFile.annFile ("annotations_" ++ e.aliasName)
      (base_name ++ "_" ++ e.aliasName ++ ".json")
      (setKey d "imagePath" (.str (base_name ++ "_" ++ e.aliasName ++ ext)))]

/-- Auxiliary: closed form of the per-pair loop with a readable annotation
document — one image write and one annotation write per configured spec, in
order, and no failure messages. -/
theorem enhanceLoop_ok_out (base_name ext : String) (exif : Option String)
    (img : Img) (d : JObj) (config : List EnhSpec) :
    enhanceLoop base_name ext exif img (.ok d) config =
      (config.flatMap (specWrites base_name ext exif img d), []) := by
  induction config with
  | nil => rfl
  | cons e rest ih =>
    rw [enhanceLoop_cons_ok, ih]
    rfl

/-- Auxiliary: write-list projection of `enhanceLoop_ok_out`. -/
theorem enhanceLoop_ok_outs (base_name ext : String) (exif : Option String)
    (img : Img) (d : JObj) (config : List EnhSpec) :
    (enhanceLoop base_name ext exif img (.ok d) config).1 =
      config.flatMap (specWrites base_name ext exif img d) := by
  rw [enhanceLoop_ok_out]

/-- Auxiliary: message projection of `enhanceLoop_ok_out`. -/
theorem enhanceLoop_ok_logs (base_name ext : String) (exif : Option String)
    (img : Img) (d : JObj) (config : List EnhSpec) :
    (enhanceLoop base_name ext exif img (.ok d) config).2 = [] := by
  rw [enhanceLoop_ok_out]

/-- Auxiliary: the image-file count is additive over concatenation. -/
theorem countImgFiles_append (l1 l2 : List OutFile) :
    countImgFiles (l1 ++ l2) = countImgFiles l1 + countImgFiles l2 := by
  simp [countImgFiles, List.filter_append]

/-- Auxiliary: the annotation-file count is additive over concatenation. -/
theorem countAnnFiles_append (l1 l2 : List OutFile) :
    countAnnFiles (l1 ++ l2) = countAnnFiles l1 + countAnnFiles l2 := by
  simp [countAnnFiles, List.filter_append]

/-- Auxiliary: image-write count of a flat map with a uniform per-block
count. -/
theorem countImgFiles_flatMap {α : Type} (n : Nat) (l : List α)
    (g : α → List OutFile) (hg : ∀ a ∈ l, countImgFiles (g a) = n) :
    countImgFiles (l.flatMap g) = l.length * n := by
  induction l with
  | nil => simp [countImgFiles]
  | cons a rest ih =>
    rw [List.flatMap_cons, countImgFiles_append, hg a (List.mem_cons_self a rest),
      ih fun b hb => hg b (List.mem_cons_of_mem _ hb), List.length_cons]
    ring

/-- Auxiliary: counterpart of `countImgFiles_flatMap` for annotation
writes. -/
theorem countAnnFiles_flatMap {α : Type} (n : Nat) (l : List α)
    (g : α → List OutFile) (hg : ∀ a ∈ l, countAnnFiles (g a) = n) :
    countAnnFiles (l.flatMap g) = l.length * n := by
  induction l with
  | nil => simp [countAnnFiles]
  | cons a rest ih =>
    rw [List.flatMap_cons, countAnnFiles_append, hg a (List.mem_cons_self a rest),
      ih fun b hb => hg b (List.mem_cons_of_mem _ hb), List.length_cons]
    ring

/-- Auxiliary: the RGB-normalized working image `process_dataset` enhances. -/
def workImg (idata : ImgData) : Img :=
  if idata.mode = "RGB" then idata.pic else Img.rgbConvert idata.pic

/-- Auxiliary: closed form of a failure-free run of `process_dataset` — each
listed image contributes its per-pair loop's writes in order and one progress
line. -/
theorem process_dataset_happy (images : String → Option ImgData)
    (annFiles : String → Option (Except Unit JObj)) (config : List EnhSpec)
    (listing : List String) (docOf : String → JObj) (imgOf : String → ImgData)
    (hext : ∀ f ∈ listing, imageExtOk f = true)
    (hann : ∀ f ∈ listing, annFiles (splitExt f).1 = some (.ok (docOf f)))
    (himg : ∀ f ∈ listing, images f = some (imgOf f)) :
    process_dataset images annFiles config listing =
      (listing.flatMap fun f =>
        (enhanceLoop (splitExt f).1 (splitExt f).2 (imgOf f).exif
          (workImg (imgOf f)) (.ok (docOf f)) config).1,
       listing.map fun f => "Processed: " ++ f) := by
  induction listing with
  | nil => rfl
  | cons f rest ih =>
    have ih' := ih (fun g hg => hext g (List.mem_cons_of_mem _ hg))
      (fun g hg => hann g (List.mem_cons_of_mem _ hg))
      (fun g hg => himg g (List.mem_cons_of_mem _ hg))
    simp only [process_dataset, ih', hext f (List.mem_cons_self f rest),
      hann f (List.mem_cons_self f rest), himg f (List.mem_cons_self f rest),
      workImg]
    simp [List.flatMap_cons, enhanceLoop_ok_outs, enhanceLoop_ok_logs, workImg]

/-- C5: for a failure-free run — every listed file has an allowed image
extension, opens, and has a same-base-name annotation file that parses — the
enhancer writes exactly N×M enhanced images and N×M rewritten annotation
documents (N listed images, M configured aliases), and for every pair of a
listed image and a configured alias the written annotation document carries
`imagePath` equal to that pair's enhanced image filename
`{baseName}_{alias}{originalExtension}`. -/
theorem claim_C5 (images : String → Option ImgData)
    (annFiles : String → Option (Except Unit JObj)) (config : List EnhSpec)
    (listing : List String) (docOf : String → JObj) (imgOf : String → ImgData)
    (hext : ∀ f ∈ listing, imageExtOk f = true)
    (hann : ∀ f ∈ listing, annFiles (splitExt f).1 = some (.ok (docOf f)))
    (himg : ∀ f ∈ listing, images f = some (imgOf f)) :
    countImgFiles (process_dataset images annFiles config listing).1 =
      listing.length * config.length ∧
    countAnnFiles (process_dataset images annFiles config listing).1 =
      listing.length * config.length ∧
    ∀ f ∈ listing, ∀ e ∈ config,
      OutFile.imgFile ("images_" ++ e.aliasName)
          ((splitExt f).1 ++ "_" ++ e.aliasName ++ (splitExt f).2)
          (apply_enhancement (workImg (imgOf f)) e.parameters) (imgOf f).exif
        ∈ (process_dataset images annFiles config listing).1 ∧
      OutFile.annFile ("annotations_" ++ e.aliasName)
          ((splitExt f).1 ++ "_" ++ e.aliasName ++ ".json")
          (setKey (docOf f) "imagePath"
            (.str ((splitExt f).1 ++ "_" ++ e.aliasName ++ (splitExt f).2)))
        ∈ (process_dataset images annFiles config listing).1 ∧
      List.lookup "imagePath"
          (setKey (docOf f) "imagePath"
            (.str ((splitExt f).1 ++ "_" ++ e.aliasName ++ (splitExt f).2)))
        = some (.str ((splitExt f).1 ++ "_" ++ e.aliasName ++ (splitExt f).2)) := by
  have hrun := process_dataset_happy images annFiles config listing docOf imgOf
    hext hann himg
  have houts : (process_dataset images annFiles config listing).1 =
      listing.flatMap fun f =>
        (enhanceLoop (splitExt f).1 (splitExt f).2 (imgOf f).exif
          (workImg (imgOf f)) (.ok (docOf f)) config).1 := by
    rw [hrun]
  have hper : ∀ f : String,
      (enhanceLoop (splitExt f).1 (splitExt f).2 (imgOf f).exif
        (workImg (imgOf f)) (.ok (docOf f)) config).1 =
      config.flatMap
        (specWrites (splitExt f).1 (splitExt f).2 (imgOf f).exif
          (workImg (imgOf f)) (docOf f)) := fun f => enhanceLoop_ok_outs _ _ _ _ _ _
  refine ⟨?_, ?_, ?_⟩
  · rw [houts]
    refine countImgFiles_flatMap config.length listing _ fun f _ => ?_
    rw [hper f]
    have := countImgFiles_flatMap 1 config
      (specWrites (splitExt f).1 (splitExt f).2 (imgOf f).exif
        (workImg (imgOf f)) (docOf f)) (fun e _ => rfl)
    rw [this, Nat.mul_one]
  · rw [houts]
    refine countAnnFiles_flatMap config.length listing _ fun f _ => ?_
    rw [hper f]
    have := countAnnFiles_flatMap 1 config
      (specWrites (splitExt f).1 (splitExt f).2 (imgOf f).exif
        (workImg (imgOf f)) (docOf f)) (fun e _ => rfl)
    rw [this, Nat.mul_one]
  · intro f hf e he
    rw [houts]
    refine ⟨?_, ?_, lookup_setKey_self _ _ _⟩
    · exact List.mem_flatMap.mpr ⟨f, hf,
        imgFile_mem_enhanceLoop (splitExt f).1 (splitExt f).2 (imgOf f).exif
          (workImg (imgOf f)) (docOf f) config e he⟩
    · exact List.mem_flatMap.mpr ⟨f, hf,
        annFile_mem_enhanceLoop (splitExt f).1 (splitExt f).2 (imgOf f).exif
          (workImg (imgOf f)) (docOf f) config e he⟩

/-- The demo opened-image table for the C5 witness. -/
def demoImages : String → Option ImgData :=
  fun _ => some ⟨Img.source 0, "RGB", some "exif0"⟩

/-- The demo annotation-file table for the C5 witness (see `demoImages`). -/
def demoAnnFiles : String → Option (Except Unit JObj) := fun _ => some (.ok demoDoc)

/-- The demo per-file document map for the C5 witness (see `demoImages`). -/
def demoDocOf : String → JObj := fun _ => demoDoc

/-- The demo per-file image map for the C5 witness (see `demoImages`). -/
def demoImgOf : String → ImgData := fun _ => ⟨Img.source 0, "RGB", some "exif0"⟩

/-- Witness for C5: one image, one alias — one enhanced image and one
rewritten annotation are produced (1 × 1 of each). -/
theorem claim_C5_witness :
    imageExtOk "a.jpg" = true ∧
    countImgFiles
        (process_dataset demoImages demoAnnFiles demoConfig ["a.jpg"]).1 =
      1 * 1 ∧
    countAnnFiles
        (process_dataset demoImages demoAnnFiles demoConfig ["a.jpg"]).1 =
      1 * 1 := by
  have h := claim_C5 demoImages demoAnnFiles demoConfig ["a.jpg"] demoDocOf
    demoImgOf
    (by intro f hf; rw [List.mem_singleton] at hf; subst hf; decide)
    (fun f _ => rfl) (fun f _ => rfl)
  exact ⟨by decide, h.1, h.2.1⟩

end DataProc
